import Mathlib

/-!
Verification of the sensor sub-device multiplexing proxy (`HalProxy`,
Android sensors V2.0 multi-HAL).  The definitions below are a shallow
embedding of `HalProxy.cpp` (src/unnamed/part_000): `int32_t` sensor
handles are represented by their bit pattern as a `Nat` below `2 ^ 32`,
`size_t` values by `Nat`, timestamps by `Int`, and the mutable `HalProxy`
object by an explicit state record threaded through the operations.
Constants and small inline helpers that live in `HalProxy.h` /
`SubHal.h` (not part of the sources) are modelled from the spec and
marked as such in their doc comments.
-/

namespace SensorsMultihal

/-- Number of low bits that hold the sub-HAL local handle
(`kBitsAfterSubHalIndex` in `HalProxy.cpp`). -/
def kBitsAfterSubHalIndex : Nat := 24

/-- Signed value of an `int32_t` whose bit pattern is `p % 2 ^ 32`. -/
def toInt32 (p : Nat) : Int :=
  if p % 2 ^ 32 < 2 ^ 31 then ((p % 2 ^ 32 : Nat) : Int)
  else ((p % 2 ^ 32 : Nat) : Int) - 2 ^ 32

/-- Embedding of `setSubHalIndex`: `sensorHandle | (int32_t(subHalIndex) << 24)`
on `int32_t` bit patterns.  The cast of the `size_t` index to `int32_t`
truncates to 32 bits, and the left shift wraps at 32 bits. -/
def setSubHalIndex (sensorHandle subHalIndex : Nat) : Nat :=
  (sensorHandle % 2 ^ 32) |||
    (((subHalIndex % 2 ^ 32) <<< kBitsAfterSubHalIndex) % 2 ^ 32)

/-- Embedding of `extractSubHalIndex`:
`static_cast<size_t>(sensorHandle >> 24)`.  The shift is an arithmetic
shift of the signed `int32_t` value (floor division by `2 ^ 24`), and the
conversion to the 64-bit unsigned `size_t` reduces modulo `2 ^ 64`. -/
def extractSubHalIndex (sensorHandle : Nat) : Nat :=
  (((toInt32 sensorHandle).fdiv (2 ^ kBitsAfterSubHalIndex)) % (2 ^ 64 : Int)).toNat

/-- Modelled from the spec: `kSensorHandleSubHalIndexMask` lives in
`HalProxy.h`, which is not among the sources; the spec fixes the
namespace to the top 8 bits of the 32-bit handle. -/
def kSensorHandleSubHalIndexMask : Nat := 0xFF000000

/-- Embedding of `HalProxy::clearSubHalIndex`:
`sensorHandle & ~kSensorHandleSubHalIndexMask` on `int32_t` bit patterns
(`~` complements within 32 bits). -/
def clearSubHalIndex (sensorHandle : Nat) : Nat :=
  (sensorHandle % 2 ^ 32) &&& (0xFFFFFFFF ^^^ kSensorHandleSubHalIndexMask)

/-- Embedding of `HalProxy::subHalIndexIsClear`:
`(sensorHandle & kSensorHandleSubHalIndexMask) == 0`. -/
def subHalIndexIsClear (sensorHandle : Nat) : Bool :=
  (sensorHandle % 2 ^ 32) &&& kSensorHandleSubHalIndexMask == 0

theorem natCast_fdiv (m n : Nat) :
    ((m : Int)).fdiv (n : Int) = ((m / n : Nat) : Int) := by
  cases m with
  | zero => simp [Int.fdiv]
  | succ k => rfl

theorem unnamespaced_lt (h : Nat) (hh : h < 2 ^ 32)
    (hclear : subHalIndexIsClear h = true) : h < 2 ^ 24 := by
  have hland : h &&& kSensorHandleSubHalIndexMask = 0 := by
    have := hclear
    simp only [subHalIndexIsClear, Nat.mod_eq_of_lt hh, beq_iff_eq] at this
    exact this
  apply Nat.lt_pow_two_of_testBit
  intro j hj
  by_cases hj32 : j < 32
  · have hbit : (h &&& kSensorHandleSubHalIndexMask).testBit j = false := by
      rw [hland]; simp
    rw [Nat.testBit_land] at hbit
    have hmask : kSensorHandleSubHalIndexMask.testBit j = true := by
      interval_cases j <;> decide
    simpa [hmask] using hbit
  · exact Nat.testBit_eq_false_of_lt
      (lt_of_lt_of_le hh (Nat.pow_le_pow_right (by norm_num) (by omega)))

theorem toInt32_of_lt (p : Nat) (hp : p < 2 ^ 31) : toInt32 p = (p : Int) := by
  have h32 : p < 2 ^ 32 := lt_of_lt_of_le hp (by norm_num)
  unfold toInt32
  rw [Nat.mod_eq_of_lt h32, if_pos hp]

theorem shiftLeft24_lt (i : Nat) (hi : i < 256) : i <<< 24 < 2 ^ 32 := by
  rw [Nat.shiftLeft_eq]
  have h24 : (2 : Nat) ^ 24 = 16777216 := by norm_num
  have h32 : (2 : Nat) ^ 32 = 4294967296 := by norm_num
  rw [h24, h32]; omega

theorem setSubHalIndex_eq_lor (h i : Nat) (hh : h < 2 ^ 32) (hi : i < 256) :
    setSubHalIndex h i = h ||| (i <<< 24) := by
  unfold setSubHalIndex kBitsAfterSubHalIndex
  rw [Nat.mod_eq_of_lt hh,
    Nat.mod_eq_of_lt (lt_of_lt_of_le hi (by norm_num : (256 : Nat) ≤ 2 ^ 32)),
    Nat.mod_eq_of_lt (shiftLeft24_lt i hi)]

/-- C4 counterexample: for backend index 128 — which the claim's
"up-to-256 backends" range allows — and unnamespaced local handle 0,
`extractSubHalIndex (setSubHalIndex 0 128)` is `2 ^ 64 - 128`, not `128`:
stamping sets the sign bit of the `int32_t` handle, the arithmetic right
shift propagates it, and the cast to `size_t` turns it into a huge
index. -/
theorem extract_stamp_fails_at_index_128 :
    subHalIndexIsClear 0 = true ∧ (128 : Nat) < 256 ∧
    extractSubHalIndex (setSubHalIndex 0 128) = 2 ^ 64 - 128 ∧
    ¬ extractSubHalIndex (setSubHalIndex 0 128) = 128 := by
  refine ⟨by decide, by decide, ?_, ?_⟩ <;> decide

/-- C4 (amended): for every unnamespaced 32-bit local handle `h` and
every backend index `i < 128`, `extractSubHalIndex (setSubHalIndex h i) = i`;
clearing the namespace bits recovers `h` for every `i < 256`.  (For
`128 ≤ i < 256` the extraction identity fails, see the counterexample.) -/
theorem stamp_roundtrip (h i : Nat) (hh : h < 2 ^ 32)
    (hclear : subHalIndexIsClear h = true) (hi : i < 256) :
    clearSubHalIndex (setSubHalIndex h i) = h ∧
    (i < 128 → extractSubHalIndex (setSubHalIndex h i) = i) := by
  have h24 : h < 2 ^ 24 := unnamespaced_lt h hh hclear
  have hstamp : setSubHalIndex h i = h ||| (i <<< 24) :=
    setSubHalIndex_eq_lor h i hh hi
  have hstamplt : h ||| (i <<< 24) < 2 ^ 32 :=
    Nat.or_lt_two_pow (lt_of_lt_of_le h24 (by norm_num)) (shiftLeft24_lt i hi)
  constructor
  · rw [hstamp]
    have hmask : (0xFFFFFFFF ^^^ kSensorHandleSubHalIndexMask) = 2 ^ 24 - 1 := by
      decide
    rw [clearSubHalIndex, Nat.mod_eq_of_lt hstamplt, hmask]
    apply Nat.eq_of_testBit_eq
    intro j
    rw [Nat.testBit_land, Nat.testBit_lor, Nat.testBit_shiftLeft,
      Nat.testBit_two_pow_sub_one]
    by_cases hj : j < 24
    · simp [hj, Nat.not_le.mpr hj]
    · have hfalse : h.testBit j = false :=
        Nat.testBit_eq_false_of_lt
          (lt_of_lt_of_le h24 (Nat.pow_le_pow_right (by norm_num) (by omega)))
      simp [hj, hfalse]
  · intro hi128
    have hpos : h ||| (i <<< 24) < 2 ^ 31 := by
      apply Nat.or_lt_two_pow (lt_of_lt_of_le h24 (by norm_num))
      rw [Nat.shiftLeft_eq]
      have h24e : (2 : Nat) ^ 24 = 16777216 := by norm_num
      have h31e : (2 : Nat) ^ 31 = 2147483648 := by norm_num
      rw [h24e, h31e]; omega
    have hdiv : (h ||| (i <<< 24)) / 2 ^ 24 = i := by
      have hsr : (h ||| (i <<< 24)) >>> 24 = i := by
        apply Nat.eq_of_testBit_eq
        intro j
        rw [Nat.testBit_shiftRight, Nat.testBit_lor, Nat.testBit_shiftLeft]
        have hfalse : h.testBit (24 + j) = false :=
          Nat.testBit_eq_false_of_lt
            (lt_of_lt_of_le h24 (Nat.pow_le_pow_right (by norm_num) (by omega)))
        have hsub : 24 + j - 24 = j := by omega
        simp [hfalse, hsub, Nat.le_add_right]
      rw [← Nat.shiftRight_eq_div_pow]
      exact hsr
    rw [hstamp, extractSubHalIndex, toInt32_of_lt _ hpos]
    rw [show ((2 : Int) ^ kBitsAfterSubHalIndex) = ((2 ^ 24 : Nat) : Int) by norm_num [kBitsAfterSubHalIndex]]
    rw [natCast_fdiv, hdiv]
    rw [Int.emod_eq_of_lt (by positivity) (by exact_mod_cast lt_of_lt_of_le hi128 (by norm_num : (128 : Nat) ≤ 2 ^ 64))]
    simp

/-- C4 witness: the amended roundtrip evaluated at handle 5, index 127. -/
theorem stamp_roundtrip_witness :
    clearSubHalIndex (setSubHalIndex 5 127) = 5 ∧
    extractSubHalIndex (setSubHalIndex 5 127) = 127 :=
  ⟨(stamp_roundtrip 5 127 (by decide) (by decide) (by decide)).1,
   (stamp_roundtrip 5 127 (by decide) (by decide) (by decide)).2 (by decide)⟩

/-- Result codes of the sensors HAL (`V1_0::Result`). -/
inductive Result where
  | OK
  | PERMISSION_DENIED
  | NO_MEMORY
  | BAD_VALUE
  | INVALID_OPERATION
deriving DecidableEq

/-- Operation modes of the sensors HAL (`V1_0::OperationMode`). -/
inductive OperationMode where
  | NORMAL
  | DATA_INJECTION
deriving DecidableEq

/-- A sensor event; only the fields the proxy inspects are modelled:
the (namespaced) handle bit pattern and the sensor type. -/
structure Event where
  sensorHandle : Nat
  sensorType : Nat
deriving DecidableEq

/-- Sensor metadata; only the fields the proxy inspects are modelled:
the handle bit pattern and the `SensorFlagBits` bitfield. -/
structure SensorInfo where
  sensorHandle : Nat
  flags : Nat
deriving DecidableEq

/-- Modelled from the spec: `V1_0::SensorType::ADDITIONAL_INFO` of the
sensors HAL types (interface definition, not among the sources). -/
def kSensorTypeAdditionalInfo : Nat := 33

/-- Modelled from the spec: `V1_0::SensorFlagBits::WAKE_UP`. -/
def kWakeUpFlag : Nat := 1

/-- Modelled from the spec: `V1_0::SensorFlagBits::MASK_DIRECT_REPORT`. -/
def kMaskDirectReport : Nat := 0x380

/-- Modelled from the spec: `V1_0::SensorFlagBits::MASK_DIRECT_CHANNEL`. -/
def kMaskDirectChannel : Nat := 0xC00

/-- Modelled from the spec: a backend (`ISensorsSubHal`) as the contract
the proxy consumes — a current operation mode plus response functions
for each forwarded call.  `setOperationMode` flips the backend's mode
exactly when the backend accepts (returns `OK`). -/
structure SubHal where
  opMode : OperationMode
  opModeRes : OperationMode → Result
  activateRes : Nat → Bool → Result
  batchRes : Nat → Int → Int → Result
  flushRes : Nat → Result
  injectRes : Event → Result
  registerDirectChannelRes : Result × Int
  unregisterDirectChannelRes : Int → Result
  configDirectReportRes : Nat → Int → Nat → Result × Int
  sensorsList : List SensorInfo

/-- A backend value with inert responses, used as the out-of-bounds
default for list indexing (the source never reaches it thanks to the
`isSubHalIndexValid` guards). -/
def defaultSubHal : SubHal :=
  { opMode := OperationMode.NORMAL
    opModeRes := fun _ => Result.OK
    activateRes := fun _ _ => Result.OK
    batchRes := fun _ _ _ => Result.OK
    flushRes := fun _ => Result.OK
    injectRes := fun _ => Result.OK
    registerDirectChannelRes := (Result.OK, 0)
    unregisterDirectChannelRes := fun _ => Result.OK
    configDirectReportRes := fun _ _ _ => (Result.OK, 0)
    sensorsList := [] }

instance : Inhabited SubHal := ⟨defaultSubHal⟩

/-- The mutable state of `HalProxy`.  `wakelockAcquired` models whether
the OS partial wake lock is currently held (the net effect of the
`acquire_wake_lock` / `release_wake_lock` calls); `eventQueueHistory`
models the output channel as the list of all events successfully
written to the event FMQ, in order. -/
structure HalProxy where
  threadsRun : Bool
  wakelockRefCount : Nat
  wakelockAcquired : Bool
  wakelockTimeoutStartTime : Int
  wakelockTimeoutResetTime : Int
  pendingWriteEventsQueue : List (List Event × Nat)
  sizePendingWriteEventsQueue : Nat
  mostEventsObservedPendingWriteEventsQueue : Nat
  eventQueueHistory : List Event
  sensors : List (Nat × SensorInfo)
  dynamicSensors : List (Nat × SensorInfo)
  subHalList : List SubHal
  directChannelSubHal : Option Nat
  currentOperationMode : OperationMode

/-- A proxy state with no backends, empty queues and the threads
running; concrete counterexamples and witnesses are built from it. -/
def emptyProxy : HalProxy :=
  { threadsRun := true
    wakelockRefCount := 0
    wakelockAcquired := false
    wakelockTimeoutStartTime := 0
    wakelockTimeoutResetTime := 0
    pendingWriteEventsQueue := []
    sizePendingWriteEventsQueue := 0
    mostEventsObservedPendingWriteEventsQueue := 0
    eventQueueHistory := []
    sensors := []
    dynamicSensors := []
    subHalList := []
    directChannelSubHal := none
    currentOperationMode := OperationMode.NORMAL }

/-- Embedding of `HalProxy::incrementRefCountAndMaybeAcquireWakelock`.
Returns the `bool` result together with the new state; `now` stands for
`getTimeNow()` at the moment of the call. -/
def incrementRefCountAndMaybeAcquireWakelock (delta : Nat) (now : Int)
    (s : HalProxy) : Bool × HalProxy :=
  if s.threadsRun = false then (false, s)
  else
    let s1 := if s.wakelockRefCount = 0 then { s with wakelockAcquired := true } else s
    (true, { s1 with wakelockTimeoutStartTime := now,
                     wakelockRefCount := s1.wakelockRefCount + delta })

/-- Embedding of `HalProxy::decrementRefCountAndMaybeReleaseWakelock`.
`timeoutStart = -1` is the source's default-argument sentinel, replaced
by `mWakelockTimeoutResetTime`. -/
def decrementRefCountAndMaybeReleaseWakelock (delta : Nat) (timeoutStart : Int)
    (s : HalProxy) : HalProxy :=
  if s.threadsRun = false then s
  else
    let ts := if timeoutStart = -1 then s.wakelockTimeoutResetTime else timeoutStart
    if s.wakelockRefCount = 0 ∨ ts < s.wakelockTimeoutResetTime then s
    else
      let rc := s.wakelockRefCount - min s.wakelockRefCount delta
      { s with wakelockRefCount := rc,
               wakelockAcquired := if rc = 0 then false else s.wakelockAcquired }

/-- Embedding of `HalProxy::resetSharedWakelock`; `now` stands for
`getTimeNow()` at the moment of the call. -/
def resetSharedWakelock (now : Int) (s : HalProxy) : HalProxy :=
  let s1 := decrementRefCountAndMaybeReleaseWakelock s.wakelockRefCount (-1) s
  { s1 with wakelockTimeoutResetTime := now }

/-- A stopped proxy holding the wake lock with three undelivered wake-up
events: the state `resetSharedWakelock` sees during reinitialization,
right after `stopThreads()` cleared `mThreadsRun`. -/
def stoppedProxy : HalProxy :=
  { emptyProxy with threadsRun := false, wakelockRefCount := 3, wakelockAcquired := true }

/-- C2: evaluation at the failing input.  After `stopThreads()` has
cleared `mThreadsRun` — exactly the situation of the reset performed by
`initialize` — `resetSharedWakelock` records the reset time but leaves
the reference count at 3 and the OS wake lock held, because the
decrement it delegates to returns immediately when the threads are
stopped.  The claim (and §4.2 of the spec) requires the count to be
driven to zero and the lock released. -/
theorem reset_after_stop_leaves_refcount :
    (resetSharedWakelock 100 stoppedProxy).wakelockRefCount = 3 ∧
    (resetSharedWakelock 100 stoppedProxy).wakelockAcquired = true ∧
    (resetSharedWakelock 100 stoppedProxy).wakelockTimeoutResetTime = 100 := by
  refine ⟨?_, ?_, ?_⟩ <;> decide

/-- C3 counterexample: with the background threads stopped, a release
whose timestamp (10) does not precede the last reset (0) subtracts
nothing: the reference count stays 5 instead of dropping to
`5 - min 5 2 = 3` as the claim requires. -/
theorem decrement_noop_when_stopped :
    (decrementRefCountAndMaybeReleaseWakelock 2 10
      { emptyProxy with threadsRun := false, wakelockRefCount := 5,
                        wakelockAcquired := true }).wakelockRefCount = 5 ∧
    ¬ (decrementRefCountAndMaybeReleaseWakelock 2 10
      { emptyProxy with threadsRun := false, wakelockRefCount := 5,
                        wakelockAcquired := true }).wakelockRefCount = 5 - min 5 2 := by
  constructor <;> decide

/-- C3 (amended): while the proxy's threads-run flag is set (the
coordinator has not been shut down), a release with a real timestamp
(`0 ≤ ts`) that precedes the last reset has no effect at all, and one
that does not precede it subtracts `min(refCount, delta)` and leaves the
OS lock held exactly while the count is non-zero (assuming the
`acquired == (refCount > 0)` invariant on entry).  When the flag is
cleared every release is a no-op (see the counterexample). -/
theorem decrement_stale_guard (delta : Nat) (ts : Int) (s : HalProxy)
    (hts : 0 ≤ ts) (hrun : s.threadsRun = true)
    (hinv : s.wakelockAcquired = decide (0 < s.wakelockRefCount)) :
    (ts < s.wakelockTimeoutResetTime →
      decrementRefCountAndMaybeReleaseWakelock delta ts s = s) ∧
    (s.wakelockTimeoutResetTime ≤ ts →
      (decrementRefCountAndMaybeReleaseWakelock delta ts s).wakelockRefCount
          = s.wakelockRefCount - min s.wakelockRefCount delta ∧
      (decrementRefCountAndMaybeReleaseWakelock delta ts s).wakelockAcquired
          = decide (0 < (decrementRefCountAndMaybeReleaseWakelock delta ts s).wakelockRefCount)) := by
  have hne : ¬ ts = -1 := by omega
  constructor
  · intro hlt
    unfold decrementRefCountAndMaybeReleaseWakelock
    rw [hrun, if_neg (by simp), if_neg hne, if_pos (Or.inr hlt)]
  · intro hle
    by_cases hrc : s.wakelockRefCount = 0
    · have hres : decrementRefCountAndMaybeReleaseWakelock delta ts s = s := by
        unfold decrementRefCountAndMaybeReleaseWakelock
        rw [hrun, if_neg (by simp), if_neg hne, if_pos (Or.inl hrc)]
      rw [hres, hrc, hinv, hrc]
      simp
    · have hres : decrementRefCountAndMaybeReleaseWakelock delta ts s =
          { s with wakelockRefCount := s.wakelockRefCount - min s.wakelockRefCount delta,
                   wakelockAcquired :=
                     if s.wakelockRefCount - min s.wakelockRefCount delta = 0 then false
                     else s.wakelockAcquired } := by
        unfold decrementRefCountAndMaybeReleaseWakelock
        rw [hrun, if_neg (by simp), if_neg hne, if_neg (by push_neg; exact ⟨hrc, hle⟩)]
      rw [hres]
      refine ⟨rfl, ?_⟩
      by_cases hz : s.wakelockRefCount - min s.wakelockRefCount delta = 0
      · simp [hz]
      · simp only [hz, if_neg hz, hinv]
        have h1 : (0 < s.wakelockRefCount) := Nat.pos_of_ne_zero hrc
        have h2 : (0 < s.wakelockRefCount - min s.wakelockRefCount delta) :=
          Nat.pos_of_ne_zero hz
        simp [h1, h2]

/-- C3 witness: the amended release behaviour evaluated at a running
proxy with `refCount = 3`, `delta = 2`, timestamp 7 past the reset. -/
theorem decrement_stale_guard_witness :
    (decrementRefCountAndMaybeReleaseWakelock 2 7
        { emptyProxy with wakelockRefCount := 3, wakelockAcquired := true }).wakelockRefCount
      = 3 - min 3 2 ∧
    (decrementRefCountAndMaybeReleaseWakelock 2 7
        { emptyProxy with wakelockRefCount := 3, wakelockAcquired := true }).wakelockAcquired
      = decide (0 < (decrementRefCountAndMaybeReleaseWakelock 2 7
        { emptyProxy with wakelockRefCount := 3, wakelockAcquired := true }).wakelockRefCount) :=
  (decrement_stale_guard 2 7
      { emptyProxy with wakelockRefCount := 3, wakelockAcquired := true }
      (by decide) (by rfl) (by decide)).2 (by decide)

/-- Association-list model of `std::map<int32_t, SensorInfo>`: lookup of
the first binding of a key. -/
def assocLookup (m : List (Nat × SensorInfo)) (k : Nat) : Option SensorInfo :=
  match m with
  | [] => none
  | p :: rest => if p.1 = k then some p.2 else assocLookup rest k

/-- Association-list model of `map[k] = v`: replace the binding of `k`
if present, append it otherwise. -/
def assocInsert (m : List (Nat × SensorInfo)) (k : Nat) (v : SensorInfo) :
    List (Nat × SensorInfo) :=
  match m with
  | [] => [(k, v)]
  | p :: rest => if p.1 = k then (k, v) :: rest else p :: assocInsert rest k v

/-- A value-initialized `SensorInfo` (all fields zero), as produced by
`std::map::operator[]` for an absent key. -/
def defaultSensorInfo : SensorInfo := { sensorHandle := 0, flags := 0 }

/-- Modelled from the spec: `HalProxy::getSensorInfo` lives in
`HalProxy.h` (not among the sources); it reads `mSensors[sensorHandle]`.
The model returns the default-constructed descriptor for absent keys
without recording the map's default-insertion side effect, which no
claim observes. -/
def getSensorInfo (s : HalProxy) (sensorHandle : Nat) : SensorInfo :=
  (assocLookup s.sensors sensorHandle).getD defaultSensorInfo

/-- Embedding of `HalProxy::countNumWakeupEvents`: the number of the
first `n` events whose sensor has the `WAKE_UP` flag in `mSensors`. -/
def countNumWakeupEvents (s : HalProxy) (events : List Event) (n : Nat) : Nat :=
  ((events.take n).filter
    (fun e => (getSensorInfo s e.sensorHandle).flags &&& kWakeUpFlag != 0)).length

/-- The immediate non-blocking write attempt at the top of
`HalProxy::postEventsToMessageQueue`: when no batch is pending, write
`min(events.size(), mEventQueue->availableToWrite())` events; the FMQ
write succeeds exactly when the queue has room for them.  Returns
`numToWrite` and the updated state. -/
def postImmediateWrite (available : Nat) (events : List Event) (s1 : HalProxy) :
    Nat × HalProxy :=
  if s1.pendingWriteEventsQueue.isEmpty then
    let n := min events.length available
    if 0 < n then
      if n ≤ available then
        (n, { s1 with eventQueueHistory := s1.eventQueueHistory ++ events.take n })
      else (0, s1)
    else (0, s1)
  else (0, s1)

/-- The second half of `HalProxy::postEventsToMessageQueue` (after the
wake-lock increment): immediate write, then push of the remainder as one
pending batch when it fits under the fixed maximum, else silent drop.
`kMax` stands for `kMaxSizePendingWriteEventsQueue`, which lives in
`HalProxy.h` (not among the sources); the spec only fixes that it is a
fixed maximum buffered-event count, so it stays a parameter. -/
def postQueueRemainder (kMax available : Nat) (events : List Event)
    (numWakeupEvents : Nat) (s1 : HalProxy) : HalProxy :=
  let p := postImmediateWrite available events s1
  let numLeft := events.length - p.1
  if p.1 < events.length ∧
      p.2.sizePendingWriteEventsQueue + numLeft ≤ kMax then
    { p.2 with
      pendingWriteEventsQueue :=
        p.2.pendingWriteEventsQueue ++ [(events.drop p.1, numWakeupEvents)],
      sizePendingWriteEventsQueue := p.2.sizePendingWriteEventsQueue + numLeft,
      mostEventsObservedPendingWriteEventsQueue :=
        max p.2.mostEventsObservedPendingWriteEventsQueue
          (p.2.sizePendingWriteEventsQueue + numLeft) }
  else p.2

/-- Embedding of `HalProxy::postEventsToMessageQueue`: increment the
wake-lock count for a locked `ScopedWakelock`, then attempt the
immediate write and queue (or drop) the remainder. -/
def postEventsToMessageQueue (kMax available : Nat) (now : Int)
    (events : List Event) (numWakeupEvents : Nat) (wakelockLocked : Bool)
    (s : HalProxy) : HalProxy :=
  postQueueRemainder kMax available events numWakeupEvents
    (if wakelockLocked then
        (incrementRefCountAndMaybeAcquireWakelock numWakeupEvents now s).2
      else s)

/-- One iteration of the consumer loop in `HalProxy::handlePendingWrites`,
for a non-empty pending queue.  `qc` is `mEventQueue->getQuantumCount()`
(the channel capacity) and `writeOk` is the outcome of the bounded
blocking write (it depends on the consumer, so it is an oracle input).
On failure the written-out portion is dropped and the wake-lock count is
corrected; in both cases the size counter shrinks and the front batch is
advanced or removed. -/
def handlePendingWritesStep (qc : Nat) (writeOk : Bool) (s : HalProxy) : HalProxy :=
  if s.threadsRun = false then s
  else
    match s.pendingWriteEventsQueue with
    | [] => s
    | (pendingWriteEvents, numWakeupEvents) :: rest =>
      let numToWrite := min pendingWriteEvents.length qc
      let s1 :=
        if writeOk then
          { s with eventQueueHistory :=
              s.eventQueueHistory ++ pendingWriteEvents.take numToWrite }
        else
          if 0 < numWakeupEvents then
            if qc < pendingWriteEvents.length then
              decrementRefCountAndMaybeReleaseWakelock
                (countNumWakeupEvents s pendingWriteEvents qc) (-1) s
            else
              decrementRefCountAndMaybeReleaseWakelock numWakeupEvents (-1) s
          else s
      let s2 := { s1 with sizePendingWriteEventsQueue :=
          s1.sizePendingWriteEventsQueue - numToWrite }
      if qc < pendingWriteEvents.length then
        { s2 with pendingWriteEventsQueue :=
            (pendingWriteEvents.drop qc, numWakeupEvents) :: rest }
      else
        { s2 with pendingWriteEventsQueue := rest }

/-- Iterated dispatch-task steps with successful blocking writes: the
behaviour of the background consumer once the channel-ready signal lets
the bounded writes go through. -/
def drainPendingWrites (qc fuel : Nat) (s : HalProxy) : HalProxy :=
  match fuel with
  | 0 => s
  | f + 1 => drainPendingWrites qc f (handlePendingWritesStep qc true s)

/-- Embedding of `HalProxyCallback::processEvents`: stamp every event
with the backend's index and count the stamped events whose sensor has
the `WAKE_UP` flag. -/
def processEvents (s : HalProxy) (subHalIndex : Nat) (events : List Event) :
    List Event × Nat :=
  match events with
  | [] => ([], 0)
  | e :: rest =>
    let e1 := { e with sensorHandle := setSubHalIndex e.sensorHandle subHalIndex }
    let p := processEvents s subHalIndex rest
    ((e1 :: p.1),
      (if (getSensorInfo s e1.sensorHandle).flags &&& kWakeUpFlag != 0 then 1 else 0) + p.2)

/-- Embedding of `HalProxyCallback::postEvents`: early return on an
empty list or stopped threads, otherwise process the events and hand
them to `postEventsToMessageQueue`. -/
def HalProxyCallback.postEvents (kMax available : Nat) (now : Int)
    (subHalIndex : Nat) (events : List Event) (wakelockLocked : Bool)
    (s : HalProxy) : HalProxy :=
  if events.isEmpty || !s.threadsRun then s
  else
    let p := processEvents s subHalIndex events
    postEventsToMessageQueue kMax available now p.1 p.2 wakelockLocked s

theorem inc_preserves (d : Nat) (now : Int) (s : HalProxy) :
    ((incrementRefCountAndMaybeAcquireWakelock d now s).2).pendingWriteEventsQueue
        = s.pendingWriteEventsQueue ∧
    ((incrementRefCountAndMaybeAcquireWakelock d now s).2).sizePendingWriteEventsQueue
        = s.sizePendingWriteEventsQueue ∧
    ((incrementRefCountAndMaybeAcquireWakelock d now s).2).mostEventsObservedPendingWriteEventsQueue
        = s.mostEventsObservedPendingWriteEventsQueue ∧
    ((incrementRefCountAndMaybeAcquireWakelock d now s).2).eventQueueHistory
        = s.eventQueueHistory ∧
    ((incrementRefCountAndMaybeAcquireWakelock d now s).2).threadsRun = s.threadsRun := by
  unfold incrementRefCountAndMaybeAcquireWakelock
  by_cases h : s.threadsRun = false <;>
    by_cases h2 : s.wakelockRefCount = 0 <;> simp [h, h2]

theorem postImmediateWrite_spec (available : Nat) (events : List Event) (s1 : HalProxy) :
    postImmediateWrite available events s1 =
      ((if s1.pendingWriteEventsQueue.isEmpty then min events.length available else 0),
       { s1 with eventQueueHistory :=
          (s1.eventQueueHistory ++ events.take
            (if s1.pendingWriteEventsQueue.isEmpty then min events.length available else 0)) }) := by
  unfold postImmediateWrite
  by_cases hq : s1.pendingWriteEventsQueue.isEmpty
  · simp only [hq, if_true]
    by_cases hn : 0 < min events.length available
    · rw [if_pos hn, if_pos (Nat.min_le_right _ _)]
    · have h0 : min events.length available = 0 := by omega
      simp [hn, h0]
  · simp [hq]

theorem postQueueRemainder_overflow (kMax available : Nat) (events : List Event)
    (numWakeupEvents w : Nat) (s1 : HalProxy)
    (hw : w = if s1.pendingWriteEventsQueue.isEmpty then min events.length available else 0)
    (hlt : w < events.length)
    (hover : kMax < s1.sizePendingWriteEventsQueue + (events.length - w)) :
    postQueueRemainder kMax available events numWakeupEvents s1 =
      { s1 with eventQueueHistory := s1.eventQueueHistory ++ events.take w } := by
  unfold postQueueRemainder
  rw [postImmediateWrite_spec]
  simp only [← hw]
  rw [if_neg (by simp; omega)]

theorem postQueueRemainder_buffer (kMax available : Nat) (events : List Event)
    (numWakeupEvents : Nat) (s1 : HalProxy)
    (hq : s1.pendingWriteEventsQueue = [])
    (hK : available < events.length)
    (hbound : s1.sizePendingWriteEventsQueue + (events.length - available) ≤ kMax) :
    postQueueRemainder kMax available events numWakeupEvents s1 =
      { s1 with
        eventQueueHistory := s1.eventQueueHistory ++ events.take available,
        pendingWriteEventsQueue := [(events.drop available, numWakeupEvents)],
        sizePendingWriteEventsQueue :=
          s1.sizePendingWriteEventsQueue + (events.length - available),
        mostEventsObservedPendingWriteEventsQueue :=
          max s1.mostEventsObservedPendingWriteEventsQueue
            (s1.sizePendingWriteEventsQueue + (events.length - available)) } := by
  have hmin : min events.length available = available := by omega
  unfold postQueueRemainder
  rw [postImmediateWrite_spec]
  simp only [hq, List.isEmpty_nil, if_true, hmin]
  rw [if_pos ⟨hK, by simpa using hbound⟩]
  simp [hq]

/-- C1 counterexample: pending bound 2, no channel space, no batch
buffered; posting three events (all three wake-up, count already
incremented on entry) would overflow the bound by one.  The claim
requires the first two remaining events to be buffered
(`sizePending = 2`) and the wake-lock count to drop by the one wake-up
event in the overflow tail (`refCount = 2`); the code instead drops the
whole remainder, buffers nothing, and performs no decrement
(`sizePending = 0`, `refCount = 3`). -/
theorem post_overflow_counterexample :
    (postEventsToMessageQueue 2 0 0 [⟨1, 0⟩, ⟨2, 0⟩, ⟨3, 0⟩] 3 true
        emptyProxy).pendingWriteEventsQueue = [] ∧
    (postEventsToMessageQueue 2 0 0 [⟨1, 0⟩, ⟨2, 0⟩, ⟨3, 0⟩] 3 true
        emptyProxy).wakelockRefCount = 3 ∧
    ¬ (postEventsToMessageQueue 2 0 0 [⟨1, 0⟩, ⟨2, 0⟩, ⟨3, 0⟩] 3 true
        emptyProxy).sizePendingWriteEventsQueue = 2 := by
  refine ⟨?_, ?_, ?_⟩ <;> decide

/-- C1 (amended): when the remainder left after the immediate write
would push the buffered-event count past the fixed maximum, the entire
remainder is dropped: the pending queue, its size counter and the
high-water mark are unchanged, the immediately written prefix is the
only delivery, and the wake-lock reference count keeps the full
increment made on entry — no decrement for the dropped events occurs. -/
theorem post_overflow_drops_whole_remainder (kMax available : Nat) (now : Int)
    (events : List Event) (numWakeupEvents w : Nat) (wakelockLocked : Bool)
    (s : HalProxy)
    (hw : w = if s.pendingWriteEventsQueue.isEmpty then min events.length available else 0)
    (hlt : w < events.length)
    (hover : kMax < s.sizePendingWriteEventsQueue + (events.length - w)) :
    (postEventsToMessageQueue kMax available now events numWakeupEvents wakelockLocked
        s).pendingWriteEventsQueue = s.pendingWriteEventsQueue ∧
    (postEventsToMessageQueue kMax available now events numWakeupEvents wakelockLocked
        s).sizePendingWriteEventsQueue = s.sizePendingWriteEventsQueue ∧
    (postEventsToMessageQueue kMax available now events numWakeupEvents wakelockLocked
        s).mostEventsObservedPendingWriteEventsQueue
      = s.mostEventsObservedPendingWriteEventsQueue ∧
    (postEventsToMessageQueue kMax available now events numWakeupEvents wakelockLocked
        s).eventQueueHistory = s.eventQueueHistory ++ events.take w ∧
    (postEventsToMessageQueue kMax available now events numWakeupEvents wakelockLocked
        s).wakelockRefCount
      = (if wakelockLocked then
            (incrementRefCountAndMaybeAcquireWakelock numWakeupEvents now s).2
          else s).wakelockRefCount := by
  obtain ⟨hq1, hsz1, hm1, hh1, ht1⟩ := inc_preserves numWakeupEvents now s
  by_cases hwl : wakelockLocked
  · have hcore := postQueueRemainder_overflow kMax available events numWakeupEvents w
      ((incrementRefCountAndMaybeAcquireWakelock numWakeupEvents now s).2)
      (by rw [hq1]; exact hw) hlt (by rw [hsz1]; exact hover)
    unfold postEventsToMessageQueue
    rw [if_pos hwl, hcore]
    simp [hq1, hsz1, hm1, hh1]
  · have hcore := postQueueRemainder_overflow kMax available events numWakeupEvents w
      s hw hlt hover
    unfold postEventsToMessageQueue
    rw [if_neg hwl, hcore]
    simp

/-- C1 witness: the amended overflow behaviour at the counterexample
input (bound 2, three events, no channel space, empty queue). -/
theorem post_overflow_drops_whole_remainder_witness :
    (postEventsToMessageQueue 2 0 0 [⟨1, 0⟩, ⟨2, 0⟩, ⟨3, 0⟩] 3 true
        emptyProxy).pendingWriteEventsQueue = emptyProxy.pendingWriteEventsQueue ∧
    (postEventsToMessageQueue 2 0 0 [⟨1, 0⟩, ⟨2, 0⟩, ⟨3, 0⟩] 3 true
        emptyProxy).sizePendingWriteEventsQueue
      = emptyProxy.sizePendingWriteEventsQueue ∧
    (postEventsToMessageQueue 2 0 0 [⟨1, 0⟩, ⟨2, 0⟩, ⟨3, 0⟩] 3 true
        emptyProxy).mostEventsObservedPendingWriteEventsQueue
      = emptyProxy.mostEventsObservedPendingWriteEventsQueue ∧
    (postEventsToMessageQueue 2 0 0 [⟨1, 0⟩, ⟨2, 0⟩, ⟨3, 0⟩] 3 true
        emptyProxy).eventQueueHistory
      = emptyProxy.eventQueueHistory ++ ([⟨1, 0⟩, ⟨2, 0⟩, ⟨3, 0⟩] : List Event).take 0 ∧
    (postEventsToMessageQueue 2 0 0 [⟨1, 0⟩, ⟨2, 0⟩, ⟨3, 0⟩] 3 true
        emptyProxy).wakelockRefCount
      = (if true then (incrementRefCountAndMaybeAcquireWakelock 3 0 emptyProxy).2
          else emptyProxy).wakelockRefCount :=
  post_overflow_drops_whole_remainder 2 0 0 [⟨1, 0⟩, ⟨2, 0⟩, ⟨3, 0⟩] 3 0 true
    emptyProxy (by decide) (by decide) (by decide)

theorem step_of_empty (qc : Nat) (writeOk : Bool) (s : HalProxy)
    (h : s.pendingWriteEventsQueue = []) : handlePendingWritesStep qc writeOk s = s := by
  unfold handlePendingWritesStep
  by_cases ht : s.threadsRun = false
  · simp [ht]
  · simp [ht, h]

theorem drain_of_empty (qc fuel : Nat) (s : HalProxy)
    (h : s.pendingWriteEventsQueue = []) : drainPendingWrites qc fuel s = s := by
  induction fuel with
  | zero => rfl
  | succ f ih =>
    show drainPendingWrites qc f (handlePendingWritesStep qc true s) = s
    rw [step_of_empty qc true s h, ih]

theorem step_front (qc : Nat) (s : HalProxy) (batch : List Event) (w : Nat)
    (rest : List (List Event × Nat))
    (hrun : s.threadsRun = true) (hq : s.pendingWriteEventsQueue = (batch, w) :: rest) :
    handlePendingWritesStep qc true s =
      if qc < batch.length then
        { s with
          eventQueueHistory := s.eventQueueHistory ++ batch.take (min batch.length qc),
          sizePendingWriteEventsQueue :=
            s.sizePendingWriteEventsQueue - min batch.length qc,
          pendingWriteEventsQueue := (batch.drop qc, w) :: rest }
      else
        { s with
          eventQueueHistory := s.eventQueueHistory ++ batch.take (min batch.length qc),
          sizePendingWriteEventsQueue :=
            s.sizePendingWriteEventsQueue - min batch.length qc,
          pendingWriteEventsQueue := rest } := by
  unfold handlePendingWritesStep
  rw [if_neg (by simp [hrun])]
  simp only [hq]
  by_cases hlt : qc < batch.length <;> simp [hlt]

theorem drain_single_batch (qc : Nat) (hqc : 0 < qc) :
    ∀ (fuel : Nat) (s : HalProxy) (batch : List Event) (w : Nat),
    s.threadsRun = true → s.pendingWriteEventsQueue = [(batch, w)] →
    0 < batch.length → batch.length ≤ s.sizePendingWriteEventsQueue →
    batch.length ≤ fuel * qc →
    (drainPendingWrites qc fuel s).eventQueueHistory = s.eventQueueHistory ++ batch ∧
    (drainPendingWrites qc fuel s).pendingWriteEventsQueue = [] ∧
    (drainPendingWrites qc fuel s).sizePendingWriteEventsQueue =
      s.sizePendingWriteEventsQueue - batch.length := by
  intro fuel
  induction fuel with
  | zero =>
    intro s batch w _ _ hpos _ hfuel
    omega
  | succ f ih =>
    intro s batch w hrun hq hpos hsz hfuel
    have hstep := step_front qc s batch w [] hrun hq
    have hdrain : drainPendingWrites qc (f + 1) s =
        drainPendingWrites qc f (handlePendingWritesStep qc true s) := rfl
    by_cases hlt : qc < batch.length
    · rw [if_pos hlt] at hstep
      have hmin : min batch.length qc = qc := by omega
      rw [hmin] at hstep
      rw [hdrain, hstep]
      have hrec := ih
        { s with
          eventQueueHistory := s.eventQueueHistory ++ batch.take qc,
          sizePendingWriteEventsQueue := s.sizePendingWriteEventsQueue - qc,
          pendingWriteEventsQueue := [(batch.drop qc, w)] }
        (batch.drop qc) w hrun rfl
        (by rw [List.length_drop]; omega)
        (by rw [List.length_drop]; exact Nat.sub_le_sub_right hsz qc)
        (by rw [List.length_drop]; rw [Nat.succ_mul] at hfuel; omega)
      obtain ⟨hrH, hrQ, hrS⟩ := hrec
      refine ⟨?_, hrQ, ?_⟩
      · rw [hrH]
        show (s.eventQueueHistory ++ batch.take qc) ++ batch.drop qc
            = s.eventQueueHistory ++ batch
        rw [List.append_assoc, List.take_append_drop]
      · rw [hrS]
        show s.sizePendingWriteEventsQueue - qc - (batch.drop qc).length
            = s.sizePendingWriteEventsQueue - batch.length
        rw [List.length_drop]; omega
    · rw [if_neg hlt] at hstep
      have hmin : min batch.length qc = batch.length := by omega
      rw [hmin] at hstep
      rw [hdrain, hstep]
      rw [drain_of_empty qc f _ rfl]
      refine ⟨?_, rfl, rfl⟩
      show s.eventQueueHistory ++ batch.take batch.length = s.eventQueueHistory ++ batch
      rw [List.take_length]

theorem postQR_buffer_drain (kMax available qc fuel : Nat) (events : List Event)
    (nw : Nat) (s1 : HalProxy)
    (hq : s1.pendingWriteEventsQueue = [])
    (hrun : s1.threadsRun = true)
    (hK : available < events.length)
    (hbound : s1.sizePendingWriteEventsQueue + (events.length - available) ≤ kMax)
    (hqc : 0 < qc)
    (hfuel : events.length - available ≤ fuel * qc) :
    (postQueueRemainder kMax available events nw s1).eventQueueHistory
        = s1.eventQueueHistory ++ events.take available ∧
    (postQueueRemainder kMax available events nw s1).pendingWriteEventsQueue
        = [(events.drop available, nw)] ∧
    (postQueueRemainder kMax available events nw s1).sizePendingWriteEventsQueue
        = s1.sizePendingWriteEventsQueue + (events.length - available) ∧
    (drainPendingWrites qc fuel (postQueueRemainder kMax available events nw s1)).eventQueueHistory
        = s1.eventQueueHistory ++ events ∧
    (drainPendingWrites qc fuel (postQueueRemainder kMax available events nw s1)).pendingWriteEventsQueue
        = [] ∧
    (drainPendingWrites qc fuel (postQueueRemainder kMax available events nw s1)).sizePendingWriteEventsQueue
        = s1.sizePendingWriteEventsQueue := by
  have hcore := postQueueRemainder_buffer kMax available events nw s1 hq hK hbound
  rw [hcore]
  have hdlen : (events.drop available).length = events.length - available :=
    List.length_drop _ _
  have hdrain := drain_single_batch qc hqc fuel
    { s1 with
      eventQueueHistory := s1.eventQueueHistory ++ events.take available,
      pendingWriteEventsQueue := [(events.drop available, nw)],
      sizePendingWriteEventsQueue :=
        s1.sizePendingWriteEventsQueue + (events.length - available),
      mostEventsObservedPendingWriteEventsQueue :=
        max s1.mostEventsObservedPendingWriteEventsQueue
          (s1.sizePendingWriteEventsQueue + (events.length - available)) }
    (events.drop available) nw hrun rfl
    (by rw [hdlen]; omega)
    (by show (events.drop available).length ≤
          s1.sizePendingWriteEventsQueue + (events.length - available)
        rw [hdlen]; omega)
    (by rw [hdlen]; omega)
  obtain ⟨hdH, hdQ, hdS⟩ := hdrain
  refine ⟨rfl, rfl, rfl, ?_, hdQ, ?_⟩
  · rw [hdH]
    show (s1.eventQueueHistory ++ events.take available) ++ events.drop available
        = s1.eventQueueHistory ++ events
    rw [List.append_assoc, List.take_append_drop]
  · rw [hdS]
    show s1.sizePendingWriteEventsQueue + (events.length - available)
          - (events.drop available).length = s1.sizePendingWriteEventsQueue
    rw [hdlen]; omega

/-- C5: posting `N` events with no batch buffered, the buffered count
within bound, and only `K < N` slots free in the output channel writes
exactly the first `K` events to the channel in order, buffers the
remaining `N - K` as one pending batch, and the dispatch task
(bounded-write iterations with a positive channel capacity `qc` and
enough iterations) then drains exactly that remainder onto the channel
in the original order, emptying the pending queue and restoring the
buffered count. -/
theorem post_partial_write_then_drain (kMax available qc fuel : Nat) (now : Int)
    (events : List Event) (numWakeupEvents : Nat) (wakelockLocked : Bool)
    (s : HalProxy)
    (hq : s.pendingWriteEventsQueue = [])
    (hrun : s.threadsRun = true)
    (hK : available < events.length)
    (hbound : s.sizePendingWriteEventsQueue + (events.length - available) ≤ kMax)
    (hqc : 0 < qc)
    (hfuel : events.length - available ≤ fuel * qc) :
    (postEventsToMessageQueue kMax available now events numWakeupEvents wakelockLocked
        s).eventQueueHistory = s.eventQueueHistory ++ events.take available ∧
    (postEventsToMessageQueue kMax available now events numWakeupEvents wakelockLocked
        s).pendingWriteEventsQueue = [(events.drop available, numWakeupEvents)] ∧
    (postEventsToMessageQueue kMax available now events numWakeupEvents wakelockLocked
        s).sizePendingWriteEventsQueue
      = s.sizePendingWriteEventsQueue + (events.length - available) ∧
    (drainPendingWrites qc fuel
        (postEventsToMessageQueue kMax available now events numWakeupEvents wakelockLocked
          s)).eventQueueHistory = s.eventQueueHistory ++ events ∧
    (drainPendingWrites qc fuel
        (postEventsToMessageQueue kMax available now events numWakeupEvents wakelockLocked
          s)).pendingWriteEventsQueue = [] ∧
    (drainPendingWrites qc fuel
        (postEventsToMessageQueue kMax available now events numWakeupEvents wakelockLocked
          s)).sizePendingWriteEventsQueue = s.sizePendingWriteEventsQueue := by
  obtain ⟨hq1, hsz1, hm1, hh1, ht1⟩ := inc_preserves numWakeupEvents now s
  by_cases hwl : wakelockLocked
  · have hglue := postQR_buffer_drain kMax available qc fuel events numWakeupEvents
      ((incrementRefCountAndMaybeAcquireWakelock numWakeupEvents now s).2)
      (by rw [hq1]; exact hq) (by rw [ht1]; exact hrun) hK
      (by rw [hsz1]; exact hbound) hqc hfuel
    have hpost : postEventsToMessageQueue kMax available now events numWakeupEvents
        wakelockLocked s = postQueueRemainder kMax available events numWakeupEvents
        ((incrementRefCountAndMaybeAcquireWakelock numWakeupEvents now s).2) := by
      unfold postEventsToMessageQueue
      rw [if_pos hwl]
    rw [← hpost, hsz1, hh1] at hglue
    exact hglue
  · have hglue := postQR_buffer_drain kMax available qc fuel events numWakeupEvents
      s hq hrun hK hbound hqc hfuel
    have hpost : postEventsToMessageQueue kMax available now events numWakeupEvents
        wakelockLocked s = postQueueRemainder kMax available events numWakeupEvents s := by
      unfold postEventsToMessageQueue
      rw [if_neg hwl]
    rw [hpost]
    exact hglue

/-- C5 witness: posting five events with two free channel slots
(`K = 2 < N = 5`, bound 10) then draining with channel capacity 2 over
three iterations. -/
theorem post_partial_write_then_drain_witness :
    (postEventsToMessageQueue 10 2 0
        [⟨1, 0⟩, ⟨2, 0⟩, ⟨3, 0⟩, ⟨4, 0⟩, ⟨5, 0⟩] 0 false emptyProxy).eventQueueHistory
      = emptyProxy.eventQueueHistory
        ++ ([⟨1, 0⟩, ⟨2, 0⟩, ⟨3, 0⟩, ⟨4, 0⟩, ⟨5, 0⟩] : List Event).take 2 ∧
    (postEventsToMessageQueue 10 2 0
        [⟨1, 0⟩, ⟨2, 0⟩, ⟨3, 0⟩, ⟨4, 0⟩, ⟨5, 0⟩] 0 false emptyProxy).pendingWriteEventsQueue
      = [(([⟨1, 0⟩, ⟨2, 0⟩, ⟨3, 0⟩, ⟨4, 0⟩, ⟨5, 0⟩] : List Event).drop 2, 0)] ∧
    (postEventsToMessageQueue 10 2 0
        [⟨1, 0⟩, ⟨2, 0⟩, ⟨3, 0⟩, ⟨4, 0⟩, ⟨5, 0⟩] 0 false emptyProxy).sizePendingWriteEventsQueue
      = emptyProxy.sizePendingWriteEventsQueue + (5 - 2) ∧
    (drainPendingWrites 2 3 (postEventsToMessageQueue 10 2 0
        [⟨1, 0⟩, ⟨2, 0⟩, ⟨3, 0⟩, ⟨4, 0⟩, ⟨5, 0⟩] 0 false emptyProxy)).eventQueueHistory
      = emptyProxy.eventQueueHistory ++ [⟨1, 0⟩, ⟨2, 0⟩, ⟨3, 0⟩, ⟨4, 0⟩, ⟨5, 0⟩] ∧
    (drainPendingWrites 2 3 (postEventsToMessageQueue 10 2 0
        [⟨1, 0⟩, ⟨2, 0⟩, ⟨3, 0⟩, ⟨4, 0⟩, ⟨5, 0⟩] 0 false emptyProxy)).pendingWriteEventsQueue
      = [] ∧
    (drainPendingWrites 2 3 (postEventsToMessageQueue 10 2 0
        [⟨1, 0⟩, ⟨2, 0⟩, ⟨3, 0⟩, ⟨4, 0⟩, ⟨5, 0⟩] 0 false emptyProxy)).sizePendingWriteEventsQueue
      = emptyProxy.sizePendingWriteEventsQueue :=
  post_partial_write_then_drain 10 2 2 3 0
    [⟨1, 0⟩, ⟨2, 0⟩, ⟨3, 0⟩, ⟨4, 0⟩, ⟨5, 0⟩] 0 false emptyProxy
    (by decide) (by decide) (by decide) (by decide) (by decide) (by decide)

/-- C10: posting an empty event list through the per-backend callback
leaves the proxy state — pending-write queue, its size counter, the
wake-lock reference count, the output channel and everything else —
completely unchanged. -/
theorem callback_postEvents_empty_noop (kMax available : Nat) (now : Int)
    (subHalIndex : Nat) (wakelockLocked : Bool) (s : HalProxy) :
    HalProxyCallback.postEvents kMax available now subHalIndex [] wakelockLocked s = s := by
  simp [HalProxyCallback.postEvents]

/-- A backend's `setOperationMode`: per the backend contract, the
backend's mode flips exactly when it accepts the request (returns
`OK`); the response is given by its `opModeRes` function. -/
def SubHal.setOperationMode (h : SubHal) (mode : OperationMode) : SubHal × Result :=
  let r := h.opModeRes mode
  (if r = Result.OK then { h with opMode := mode } else h, r)

/-- First loop of `HalProxy::setOperationMode`: apply the mode to each
backend in order, stopping at the first failure.  Returns the updated
backends, the last result, and the loop index at the break (the number
of backends that had accepted). -/
def setOpModeAll (mode : OperationMode) : List SubHal → List SubHal × Result × Nat
  | [] => ([], Result.OK, 0)
  | h :: t =>
    let p := SubHal.setOperationMode h mode
    if p.2 = Result.OK then
      let q := setOpModeAll mode t
      (p.1 :: q.1, q.2.1, q.2.2 + 1)
    else
      (p.1 :: t, p.2, 0)

/-- Second loop of `HalProxy::setOperationMode`: reset the first `k`
backends to the previous operation mode. -/
def rollbackModes (prev : OperationMode) : Nat → List SubHal → List SubHal
  | _, [] => []
  | 0, l => l
  | k + 1, h :: t => (SubHal.setOperationMode h prev).1 :: rollbackModes prev k t

/-- Embedding of `HalProxy::setOperationMode`: on any backend failure,
roll the backends that had already flipped back to
`mCurrentOperationMode` and return the failure; on success record the
new mode. -/
def HalProxy.setOperationMode (mode : OperationMode) (s : HalProxy) : HalProxy × Result :=
  let r := setOpModeAll mode s.subHalList
  if r.2.1 = Result.OK then
    ({ s with subHalList := r.1, currentOperationMode := mode }, Result.OK)
  else
    ({ s with subHalList := rollbackModes s.currentOperationMode r.2.2 r.1 }, r.2.1)

theorem setOpModeAll_ok (mode : OperationMode) (l : List SubHal)
    (hok : ∀ h ∈ l, h.opModeRes mode = Result.OK) :
    setOpModeAll mode l =
      (l.map (fun h => { h with opMode := mode }), Result.OK, l.length) := by
  induction l with
  | nil => rfl
  | cons h t ih =>
    have hh := hok h (List.mem_cons_self h t)
    have ht : ∀ x ∈ t, x.opModeRes mode = Result.OK :=
      fun x hx => hok x (List.mem_cons_of_mem h hx)
    simp [setOpModeAll, SubHal.setOperationMode, hh, ih ht]

theorem setOpModeAll_fail (mode : OperationMode) (l1 : List SubHal) (hb : SubHal)
    (l2 : List SubHal)
    (hok : ∀ h ∈ l1, h.opModeRes mode = Result.OK)
    (hfail : hb.opModeRes mode ≠ Result.OK) :
    setOpModeAll mode (l1 ++ hb :: l2) =
      (l1.map (fun h => { h with opMode := mode }) ++ hb :: l2,
       hb.opModeRes mode, l1.length) := by
  induction l1 with
  | nil => simp [setOpModeAll, SubHal.setOperationMode, hfail]
  | cons h t ih =>
    have hh := hok h (List.mem_cons_self h t)
    have ht : ∀ x ∈ t, x.opModeRes mode = Result.OK :=
      fun x hx => hok x (List.mem_cons_of_mem h hx)
    simp [setOpModeAll, SubHal.setOperationMode, hh, ih ht]

theorem rollbackModes_append (prev : OperationMode) (l1 rest : List SubHal) :
    rollbackModes prev l1.length (l1 ++ rest) =
      l1.map (fun h => (SubHal.setOperationMode h prev).1) ++ rest := by
  induction l1 with
  | nil => cases rest <;> rfl
  | cons h t ih => simp [rollbackModes, ih]

/-- C6: operation-mode changes are transactional.  With all backends in
the proxy's recorded mode and all of them accepting that mode, a
`setOperationMode(M)` on which every backend accepts returns `OK`,
records `M` and leaves every backend in `M`; if some backend rejects
`M`, the call returns that backend's failure, every backend that had
already accepted is rolled back, all backends end in the previous mode,
and the recorded mode is unchanged. -/
theorem setOperationMode_transactional (mode : OperationMode) (s : HalProxy)
    (hmode : ∀ h ∈ s.subHalList, h.opMode = s.currentOperationMode)
    (haccept : ∀ h ∈ s.subHalList, h.opModeRes s.currentOperationMode = Result.OK) :
    ((∀ h ∈ s.subHalList, h.opModeRes mode = Result.OK) →
      (HalProxy.setOperationMode mode s).2 = Result.OK ∧
      (HalProxy.setOperationMode mode s).1.currentOperationMode = mode ∧
      ∀ h ∈ (HalProxy.setOperationMode mode s).1.subHalList, h.opMode = mode) ∧
    (∀ (l1 : List SubHal) (hb : SubHal) (l2 : List SubHal),
      s.subHalList = l1 ++ hb :: l2 →
      (∀ h ∈ l1, h.opModeRes mode = Result.OK) →
      hb.opModeRes mode ≠ Result.OK →
      (HalProxy.setOperationMode mode s).2 = hb.opModeRes mode ∧
      (HalProxy.setOperationMode mode s).1.currentOperationMode = s.currentOperationMode ∧
      ∀ h ∈ (HalProxy.setOperationMode mode s).1.subHalList,
        h.opMode = s.currentOperationMode) := by
  constructor
  · intro hok
    have hall := setOpModeAll_ok mode s.subHalList hok
    unfold HalProxy.setOperationMode
    rw [hall]
    refine ⟨rfl, rfl, ?_⟩
    intro h hmem
    have hmem2 : h ∈ s.subHalList.map (fun h => { h with opMode := mode }) := hmem
    simp only [List.mem_map] at hmem2
    obtain ⟨x, _, rfl⟩ := hmem2
    rfl
  · intro l1 hb l2 heq hok hfail
    have hall := setOpModeAll_fail mode l1 hb l2 hok hfail
    unfold HalProxy.setOperationMode
    rw [heq, hall]
    rw [if_neg (show ¬ ((l1.map (fun h => { h with opMode := mode }) ++ hb :: l2,
        hb.opModeRes mode, l1.length).2.1 = Result.OK) from hfail)]
    have hlen : l1.length = (l1.map (fun h => { h with opMode := mode })).length := by
      rw [List.length_map]
    refine ⟨rfl, rfl, ?_⟩
    intro h hmem
    simp only [hlen, rollbackModes_append] at hmem
    simp only [List.mem_append, List.mem_map, List.mem_cons] at hmem
    rcases hmem with ⟨y, ⟨x, hx, rfl⟩, rfl⟩ | hmem
    · have hxs : x ∈ s.subHalList := by
        rw [heq]; exact List.mem_append_left _ hx
      have hacc := haccept x hxs
      show (SubHal.setOperationMode { x with opMode := mode }
          s.currentOperationMode).1.opMode = s.currentOperationMode
      unfold SubHal.setOperationMode
      simp only []
      rw [if_pos (by simpa using hacc)]
    · rcases hmem with rfl | hmem
      · exact hmode h (by rw [heq]; exact List.mem_append_right _ (List.mem_cons_self _ _))
      · exact hmode h (by rw [heq]; exact List.mem_append_right _ (List.mem_cons_of_mem _ hmem))

/-- A backend that rejects `DATA_INJECTION` and accepts everything
else. -/
def rejectingSubHal : SubHal :=
  { defaultSubHal with opModeRes :=
      fun m => if m = OperationMode.DATA_INJECTION then Result.BAD_VALUE else Result.OK }

/-- Two backends in `NORMAL` mode: backend 0 accepts everything,
backend 1 rejects `DATA_INJECTION`. -/
def proxyTwoSubHals : HalProxy :=
  { emptyProxy with subHalList := [defaultSubHal, rejectingSubHal] }

/-- C6 witness: backend 0 accepts and backend 1 rejects the switch to
`DATA_INJECTION`; the call fails with the rejecting backend's result and
the recorded mode stays `NORMAL`. -/
theorem setOperationMode_transactional_witness :
    (HalProxy.setOperationMode OperationMode.DATA_INJECTION proxyTwoSubHals).2
      = Result.BAD_VALUE ∧
    (HalProxy.setOperationMode OperationMode.DATA_INJECTION
        proxyTwoSubHals).1.currentOperationMode = OperationMode.NORMAL := by
  have h := (setOperationMode_transactional OperationMode.DATA_INJECTION proxyTwoSubHals
      (by intro h hm; simp only [proxyTwoSubHals, emptyProxy] at hm ⊢
          simp only [List.mem_cons, List.not_mem_nil, or_false] at hm
          rcases hm with rfl | rfl <;> rfl)
      (by intro h hm; simp only [proxyTwoSubHals, emptyProxy] at hm ⊢
          simp only [List.mem_cons, List.not_mem_nil, or_false] at hm
          rcases hm with rfl | rfl <;> rfl)).2
    [defaultSubHal] rejectingSubHal [] rfl
    (by intro h hm
        simp only [List.mem_cons, List.not_mem_nil, or_false] at hm
        subst hm; rfl)
    (by decide)
  exact ⟨h.1, h.2.1⟩

/-- Embedding of `HalProxy::isSubHalIndexValid`. -/
def isSubHalIndexValid (s : HalProxy) (sensorHandle : Nat) : Bool :=
  extractSubHalIndex sensorHandle < s.subHalList.length

/-- Embedding of `HalProxy::getSubHalForSensorHandle` (callers guard the
index with `isSubHalIndexValid`, so the default is never resolved by a
guarded call). -/
def getSubHalForSensorHandle (s : HalProxy) (sensorHandle : Nat) : SubHal :=
  s.subHalList.getD (extractSubHalIndex sensorHandle) defaultSubHal

/-- Embedding of `HalProxy::activate`.  The `Option` component is the
invocation log: the resolved backend index with the forwarded arguments,
or `none` when no backend call is made. -/
def HalProxy.activate (s : HalProxy) (sensorHandle : Nat) (enabled : Bool) :
    Result × Option (Nat × Nat × Bool) :=
  if isSubHalIndexValid s sensorHandle = false then (Result.BAD_VALUE, none)
  else
    ((getSubHalForSensorHandle s sensorHandle).activateRes
        (clearSubHalIndex sensorHandle) enabled,
     some (extractSubHalIndex sensorHandle, clearSubHalIndex sensorHandle, enabled))

/-- Embedding of `HalProxy::batch`, with the invocation log. -/
def HalProxy.batch (s : HalProxy) (sensorHandle : Nat)
    (samplingPeriodNs maxReportLatencyNs : Int) :
    Result × Option (Nat × Nat × Int × Int) :=
  if isSubHalIndexValid s sensorHandle = false then (Result.BAD_VALUE, none)
  else
    ((getSubHalForSensorHandle s sensorHandle).batchRes
        (clearSubHalIndex sensorHandle) samplingPeriodNs maxReportLatencyNs,
     some (extractSubHalIndex sensorHandle, clearSubHalIndex sensorHandle,
       samplingPeriodNs, maxReportLatencyNs))

/-- Embedding of `HalProxy::flush`, with the invocation log. -/
def HalProxy.flush (s : HalProxy) (sensorHandle : Nat) :
    Result × Option (Nat × Nat) :=
  if isSubHalIndexValid s sensorHandle = false then (Result.BAD_VALUE, none)
  else
    ((getSubHalForSensorHandle s sensorHandle).flushRes (clearSubHalIndex sensorHandle),
     some (extractSubHalIndex sensorHandle, clearSubHalIndex sensorHandle))

/-- Embedding of `HalProxy::injectSensorData`: in `NORMAL` mode only
`ADDITIONAL_INFO` events may be injected; then the handle is validated
and the event forwarded with the namespace bits cleared. -/
def HalProxy.injectSensorData (s : HalProxy) (event : Event) :
    Result × Option (Nat × Event) :=
  let r0 := if s.currentOperationMode = OperationMode.NORMAL ∧
      event.sensorType ≠ kSensorTypeAdditionalInfo then Result.BAD_VALUE else Result.OK
  if r0 = Result.OK then
    if isSubHalIndexValid s event.sensorHandle = false then (Result.BAD_VALUE, none)
    else
      ((getSubHalForSensorHandle s event.sensorHandle).injectRes
          { event with sensorHandle := clearSubHalIndex event.sensorHandle },
       some (extractSubHalIndex event.sensorHandle,
         { event with sensorHandle := clearSubHalIndex event.sensorHandle }))
  else (r0, none)

/-- C7 counterexample: a proxy with one backend, operating in `NORMAL`
mode, and an injected event with a valid handle (backend index 0) whose
type is not `ADDITIONAL_INFO`: the claim requires the call to forward
the unstamped event to backend 0, but the code returns `BAD_VALUE`
without invoking any backend. -/
theorem inject_valid_handle_not_forwarded :
    isSubHalIndexValid { emptyProxy with subHalList := [defaultSubHal] } 5 = true ∧
    HalProxy.injectSensorData { emptyProxy with subHalList := [defaultSubHal] }
        ⟨5, 1⟩ = (Result.BAD_VALUE, none) := by
  constructor <;> decide

/-- C7 (amended): for every handle whose extracted backend index is out
of range, `activate`, `batch`, `flush` and `injectSensorData` return
`BAD_VALUE` and invoke no backend; for every valid handle, `activate`,
`batch` and `flush` forward to the resolved backend with the namespace
bits cleared, and `injectSensorData` does so exactly when injection is
permitted (mode not `NORMAL`, or an `ADDITIONAL_INFO` event), returning
`BAD_VALUE` without any backend call otherwise. -/
theorem handle_validation_and_forwarding (s : HalProxy) (sensorHandle : Nat)
    (enabled : Bool) (samplingPeriodNs maxReportLatencyNs : Int) (event : Event) :
    (isSubHalIndexValid s sensorHandle = false →
      HalProxy.activate s sensorHandle enabled = (Result.BAD_VALUE, none) ∧
      HalProxy.batch s sensorHandle samplingPeriodNs maxReportLatencyNs
        = (Result.BAD_VALUE, none) ∧
      HalProxy.flush s sensorHandle = (Result.BAD_VALUE, none)) ∧
    (isSubHalIndexValid s event.sensorHandle = false →
      HalProxy.injectSensorData s event = (Result.BAD_VALUE, none)) ∧
    (isSubHalIndexValid s sensorHandle = true →
      HalProxy.activate s sensorHandle enabled =
        ((getSubHalForSensorHandle s sensorHandle).activateRes
            (clearSubHalIndex sensorHandle) enabled,
         some (extractSubHalIndex sensorHandle, clearSubHalIndex sensorHandle, enabled)) ∧
      HalProxy.batch s sensorHandle samplingPeriodNs maxReportLatencyNs =
        ((getSubHalForSensorHandle s sensorHandle).batchRes
            (clearSubHalIndex sensorHandle) samplingPeriodNs maxReportLatencyNs,
         some (extractSubHalIndex sensorHandle, clearSubHalIndex sensorHandle,
           samplingPeriodNs, maxReportLatencyNs)) ∧
      HalProxy.flush s sensorHandle =
        ((getSubHalForSensorHandle s sensorHandle).flushRes (clearSubHalIndex sensorHandle),
         some (extractSubHalIndex sensorHandle, clearSubHalIndex sensorHandle))) ∧
    (isSubHalIndexValid s event.sensorHandle = true →
      (¬ (s.currentOperationMode = OperationMode.NORMAL ∧
          event.sensorType ≠ kSensorTypeAdditionalInfo) →
        HalProxy.injectSensorData s event =
          ((getSubHalForSensorHandle s event.sensorHandle).injectRes
              { event with sensorHandle := clearSubHalIndex event.sensorHandle },
           some (extractSubHalIndex event.sensorHandle,
             { event with sensorHandle := clearSubHalIndex event.sensorHandle }))) ∧
      ((s.currentOperationMode = OperationMode.NORMAL ∧
          event.sensorType ≠ kSensorTypeAdditionalInfo) →
        HalProxy.injectSensorData s event = (Result.BAD_VALUE, none))) := by
  refine ⟨?_, ?_, ?_, ?_⟩
  · intro hinv
    refine ⟨?_, ?_, ?_⟩ <;>
      simp [HalProxy.activate, HalProxy.batch, HalProxy.flush, hinv]
  · intro hinv
    by_cases hmode : s.currentOperationMode = OperationMode.NORMAL ∧
        event.sensorType ≠ kSensorTypeAdditionalInfo <;>
      simp [HalProxy.injectSensorData, hinv, hmode]
  · intro hval
    refine ⟨?_, ?_, ?_⟩ <;>
      simp [HalProxy.activate, HalProxy.batch, HalProxy.flush, hval]
  · intro hval
    constructor
    · intro hmode
      simp [HalProxy.injectSensorData, hval, hmode]
    · intro hmode
      simp [HalProxy.injectSensorData, hval, hmode]

/-- C7 witness: with one backend, handle `2^24` (backend index 1) is
invalid and `activate` rejects it without a call; handle 5 (backend
index 0, local handle 5) is valid and `activate` forwards it, and
`injectSensorData` of an `ADDITIONAL_INFO` event on it forwards too. -/
theorem handle_validation_and_forwarding_witness :
    (HalProxy.activate { emptyProxy with subHalList := [defaultSubHal] } 16777216 true
        = (Result.BAD_VALUE, none) ∧
      HalProxy.batch { emptyProxy with subHalList := [defaultSubHal] } 16777216 0 0
        = (Result.BAD_VALUE, none) ∧
      HalProxy.flush { emptyProxy with subHalList := [defaultSubHal] } 16777216
        = (Result.BAD_VALUE, none)) ∧
    HalProxy.activate { emptyProxy with subHalList := [defaultSubHal] } 5 true =
      ((getSubHalForSensorHandle { emptyProxy with subHalList := [defaultSubHal] } 5).activateRes
          (clearSubHalIndex 5) true,
       some (extractSubHalIndex 5, clearSubHalIndex 5, true)) ∧
    HalProxy.injectSensorData { emptyProxy with subHalList := [defaultSubHal] } ⟨5, 33⟩ =
      ((getSubHalForSensorHandle { emptyProxy with subHalList := [defaultSubHal] } 5).injectRes
          { sensorHandle := clearSubHalIndex 5, sensorType := 33 },
       some (extractSubHalIndex 5, { sensorHandle := clearSubHalIndex 5, sensorType := 33 })) :=
  ⟨(handle_validation_and_forwarding { emptyProxy with subHalList := [defaultSubHal] }
      16777216 true 0 0 ⟨5, 33⟩).1 (by decide),
   ((handle_validation_and_forwarding { emptyProxy with subHalList := [defaultSubHal] }
      5 true 0 0 ⟨5, 33⟩).2.2.1 (by decide)).1,
   ((handle_validation_and_forwarding { emptyProxy with subHalList := [defaultSubHal] }
      5 true 0 0 ⟨5, 33⟩).2.2.2 (by decide)).1 (by decide)⟩

/-- Embedding of `HalProxy::registerDirectChannel`.  The shared-memory
argument is opaque to the proxy and omitted; the result pair is the
`(Result, channelHandle)` reported through the callback, and the
`Option` component is the invocation log (the backend the call was
routed to). -/
def HalProxy.registerDirectChannel (s : HalProxy) : (Result × Int) × Option Nat :=
  match s.directChannelSubHal with
  | none => ((Result.INVALID_OPERATION, -1), none)
  | some j => ((s.subHalList.getD j defaultSubHal).registerDirectChannelRes, some j)

/-- Embedding of `HalProxy::unregisterDirectChannel`, with the
invocation log. -/
def HalProxy.unregisterDirectChannel (s : HalProxy) (channelHandle : Int) :
    Result × Option Nat :=
  match s.directChannelSubHal with
  | none => (Result.INVALID_OPERATION, none)
  | some j =>
    ((s.subHalList.getD j defaultSubHal).unregisterDirectChannelRes channelHandle, some j)

/-- Embedding of `HalProxy::configDirectReport`: the sensor handle is
forwarded with the namespace bits cleared; the result pair is the
`(Result, reportToken)` reported through the callback. -/
def HalProxy.configDirectReport (s : HalProxy) (sensorHandle : Nat)
    (channelHandle : Int) (rate : Nat) : (Result × Int) × Option (Nat × Nat) :=
  match s.directChannelSubHal with
  | none => ((Result.INVALID_OPERATION, -1), none)
  | some j =>
    ((s.subHalList.getD j defaultSubHal).configDirectReportRes
        (clearSubHalIndex sensorHandle) channelHandle rate,
     some (j, clearSubHalIndex sensorHandle))

/-- C8: with no designated direct-channel backend, each of
`registerDirectChannel`, `unregisterDirectChannel` and
`configDirectReport` answers `INVALID_OPERATION` (with handle/token
`-1` where one is reported) and routes to no backend; with a designated
backend `j`, each call is forwarded to exactly that backend. -/
theorem direct_channel_routing (s : HalProxy) (channelHandle : Int)
    (sensorHandle rate : Nat) :
    (s.directChannelSubHal = none →
      HalProxy.registerDirectChannel s = ((Result.INVALID_OPERATION, -1), none) ∧
      HalProxy.unregisterDirectChannel s channelHandle
        = (Result.INVALID_OPERATION, none) ∧
      HalProxy.configDirectReport s sensorHandle channelHandle rate
        = ((Result.INVALID_OPERATION, -1), none)) ∧
    (∀ j, s.directChannelSubHal = some j →
      HalProxy.registerDirectChannel s =
        ((s.subHalList.getD j defaultSubHal).registerDirectChannelRes, some j) ∧
      HalProxy.unregisterDirectChannel s channelHandle =
        ((s.subHalList.getD j defaultSubHal).unregisterDirectChannelRes channelHandle,
         some j) ∧
      HalProxy.configDirectReport s sensorHandle channelHandle rate =
        ((s.subHalList.getD j defaultSubHal).configDirectReportRes
            (clearSubHalIndex sensorHandle) channelHandle rate,
         some (j, clearSubHalIndex sensorHandle))) := by
  constructor
  · intro h
    refine ⟨?_, ?_, ?_⟩ <;>
      simp [HalProxy.registerDirectChannel, HalProxy.unregisterDirectChannel,
        HalProxy.configDirectReport, h]
  · intro j hj
    refine ⟨?_, ?_, ?_⟩ <;>
      simp [HalProxy.registerDirectChannel, HalProxy.unregisterDirectChannel,
        HalProxy.configDirectReport, hj]

/-- C8 witness: with no designated backend the register call answers
`INVALID_OPERATION` with channel handle `-1`; with backend 0 designated
it is routed to backend 0. -/
theorem direct_channel_routing_witness :
    HalProxy.registerDirectChannel emptyProxy = ((Result.INVALID_OPERATION, -1), none) ∧
    HalProxy.registerDirectChannel
        { emptyProxy with subHalList := [defaultSubHal], directChannelSubHal := some 0 } =
      (defaultSubHal.registerDirectChannelRes, some 0) :=
  ⟨((direct_channel_routing emptyProxy 0 0 0).1 rfl).1,
   ((direct_channel_routing
      { emptyProxy with subHalList := [defaultSubHal], directChannelSubHal := some 0 }
      0 0 0).2 0 rfl).1⟩

/-- Embedding of `HalProxy::setDirectChannelFlags`: designate the first
backend with a direct-channel-capable sensor; clear the direct-channel
flag bits of sensors from any other backend once one is designated.
Takes and returns the `mDirectChannelSubHal` designation (a backend
index standing for the pointer). -/
def setDirectChannelFlags (sensorInfo : SensorInfo) (subHalIndex : Nat)
    (dcs : Option Nat) : SensorInfo × Option Nat :=
  let sensorSupportsDirectChannel :=
    (sensorInfo.flags &&& (kMaskDirectReport ||| kMaskDirectChannel)) != 0
  match dcs with
  | none =>
    if sensorSupportsDirectChannel then (sensorInfo, some subHalIndex)
    else (sensorInfo, none)
  | some j =>
    if j ≠ subHalIndex then
      ({ sensorInfo with flags :=
          sensorInfo.flags &&& (0xFFFFFFFF ^^^ (kMaskDirectReport ||| kMaskDirectChannel)) },
       some j)
    else (sensorInfo, some j)

/-- The body of `HalProxy::initializeSensorList` for one backend's
enumerated list: descriptors whose namespace bits are not clear are
logged and dropped; the rest are stamped with the backend index, get
their direct-channel flags adjusted, and are inserted into `mSensors`. -/
def initSensorListOne (subHalIndex : Nat) (list : List SensorInfo)
    (sensors : List (Nat × SensorInfo)) (dcs : Option Nat) :
    List (Nat × SensorInfo) × Option Nat :=
  match list with
  | [] => (sensors, dcs)
  | sensor :: rest =>
    if subHalIndexIsClear sensor.sensorHandle then
      let stamped := { sensor with
        sensorHandle := setSubHalIndex sensor.sensorHandle subHalIndex }
      let p := setDirectChannelFlags stamped subHalIndex dcs
      initSensorListOne subHalIndex rest (assocInsert sensors p.1.sensorHandle p.1) p.2
    else
      initSensorListOne subHalIndex rest sensors dcs

/-- Embedding of `HalProxy::initializeSensorList`: process every
backend's catalog in index order. -/
def initSensorListAll (subHals : List SubHal) (startIndex : Nat)
    (sensors : List (Nat × SensorInfo)) (dcs : Option Nat) :
    List (Nat × SensorInfo) × Option Nat :=
  match subHals with
  | [] => (sensors, dcs)
  | sh :: rest =>
    let p := initSensorListOne startIndex sh.sensorsList sensors dcs
    initSensorListAll rest (startIndex + 1) p.1 p.2

/-- Embedding of the loop of `HalProxy::onDynamicSensorsConnected`:
descriptors with non-clear namespace bits are logged and skipped; the
rest are stamped, inserted into `mDynamicSensors`, and collected for the
upstream notification (in order). -/
def connectDynLoop (subHalIndex : Nat) (added : List SensorInfo)
    (dyn : List (Nat × SensorInfo)) : List (Nat × SensorInfo) × List SensorInfo :=
  match added with
  | [] => (dyn, [])
  | sensor :: rest =>
    if subHalIndexIsClear sensor.sensorHandle then
      let stamped := { sensor with
        sensorHandle := setSubHalIndex sensor.sensorHandle subHalIndex }
      let p := connectDynLoop subHalIndex rest (assocInsert dyn stamped.sensorHandle stamped)
      (p.1, stamped :: p.2)
    else
      connectDynLoop subHalIndex rest dyn

/-- Embedding of `HalProxy::onDynamicSensorsConnected`: update the
dynamic catalog and return the translated notification forwarded to the
upstream callback. -/
def HalProxy.onDynamicSensorsConnected (added : List SensorInfo) (subHalIndex : Nat)
    (s : HalProxy) : HalProxy × List SensorInfo :=
  let p := connectDynLoop subHalIndex added s.dynamicSensors
  ({ s with dynamicSensors := p.1 }, p.2)

theorem dcf_handle (si : SensorInfo) (idx : Nat) (dcs : Option Nat) :
    (setDirectChannelFlags si idx dcs).1.sensorHandle = si.sensorHandle := by
  unfold setDirectChannelFlags
  cases dcs with
  | none => by_cases h : (si.flags &&& (kMaskDirectReport ||| kMaskDirectChannel)) != 0 <;>
      simp [h]
  | some j => by_cases h : j ≠ idx <;> simp [h]

theorem assocLookup_insert_self (m : List (Nat × SensorInfo)) (k : Nat) (v : SensorInfo) :
    assocLookup (assocInsert m k v) k = some v := by
  induction m with
  | nil => simp [assocInsert, assocLookup]
  | cons p rest ih =>
    by_cases h : p.1 = k <;> simp [assocInsert, assocLookup, h, ih]

theorem assocLookup_insert_ne (m : List (Nat × SensorInfo)) (k k' : Nat)
    (v : SensorInfo) (hk : ¬ k' = k) :
    assocLookup (assocInsert m k' v) k = assocLookup m k := by
  induction m with
  | nil => simp [assocInsert, assocLookup, hk]
  | cons p rest ih =>
    by_cases hp : p.1 = k'
    · have hpk : ¬ p.1 = k := by rw [hp]; exact hk
      simp [assocInsert, hp, assocLookup, hk, hpk]
    · have hk2 : ¬ k = k' := fun hh => hk hh.symm
      by_cases hpk : p.1 = k <;>
        simp [assocInsert, hp, assocLookup, hpk, hk2, ih]

theorem assocLookup_insert_isSome (m : List (Nat × SensorInfo)) (k k' : Nat)
    (v : SensorInfo) (h : (assocLookup m k).isSome = true) :
    (assocLookup (assocInsert m k' v) k).isSome = true := by
  by_cases hk : k' = k
  · subst hk
    rw [assocLookup_insert_self]
    rfl
  · rw [assocLookup_insert_ne m k k' v hk]
    exact h

theorem initSensorListOne_preserves_isSome (idx : Nat) (list : List SensorInfo) :
    ∀ (sensors : List (Nat × SensorInfo)) (dcs : Option Nat) (k : Nat),
    (assocLookup sensors k).isSome = true →
    (assocLookup (initSensorListOne idx list sensors dcs).1 k).isSome = true := by
  induction list with
  | nil => intro sensors dcs k h; exact h
  | cons sensor rest ih =>
    intro sensors dcs k h
    by_cases hc : subHalIndexIsClear sensor.sensorHandle
    · simp only [initSensorListOne, hc, if_true]
      exact ih _ _ k (assocLookup_insert_isSome _ _ _ _ h)
    · simp only [initSensorListOne, hc, if_false]
      exact ih _ _ k h

theorem connectDynLoop_spec (idx : Nat) (added : List SensorInfo) :
    ∀ dyn : List (Nat × SensorInfo),
    connectDynLoop idx added dyn =
      (((added.filter (fun x => subHalIndexIsClear x.sensorHandle)).map
          (fun x => { x with sensorHandle := setSubHalIndex x.sensorHandle idx })).foldl
        (fun m st => assocInsert m st.sensorHandle st) dyn,
       (added.filter (fun x => subHalIndexIsClear x.sensorHandle)).map
          (fun x => { x with sensorHandle := setSubHalIndex x.sensorHandle idx })) := by
  induction added with
  | nil => intro dyn; rfl
  | cons sensor rest ih =>
    intro dyn
    by_cases hc : subHalIndexIsClear sensor.sensorHandle
    · simp only [connectDynLoop, hc, if_true, List.filter_cons, List.map_cons,
        List.foldl_cons, ih]
    · simp only [connectDynLoop, hc, if_false, List.filter_cons, ih]
      simp [hc]

theorem initSensorListOne_skips_namespaced (idx : Nat) (list : List SensorInfo) :
    ∀ (sensors : List (Nat × SensorInfo)) (dcs : Option Nat),
    initSensorListOne idx list sensors dcs =
      initSensorListOne idx (list.filter (fun x => subHalIndexIsClear x.sensorHandle))
        sensors dcs := by
  induction list with
  | nil => intro sensors dcs; rfl
  | cons sensor rest ih =>
    intro sensors dcs
    rw [List.filter_cons]
    by_cases hc : subHalIndexIsClear sensor.sensorHandle
    · rw [if_pos (by simpa using hc)]
      simp only [initSensorListOne, hc, if_true]
      exact ih _ _
    · rw [if_neg (by simpa using hc)]
      simp only [initSensorListOne, hc, if_false]
      exact ih _ _

/-- C9: backend-reported descriptors with non-zero namespace bits are
excluded.  For a dynamic-sensors-connected notification, the updated
dynamic catalog is exactly the old one with the stamped clear-handled
descriptors inserted, and the forwarded notification lists exactly those
stamped descriptors in order (so namespaced ones are excluded from both
and the catalog is otherwise unchanged).  During initial catalog
enumeration, processing a backend's list is identical to processing only
its clear-handled descriptors, and every clear-handled descriptor ends
up in the merged catalog under its stamped handle. -/
theorem catalog_stamping_excludes_namespaced (idx : Nat) (added list : List SensorInfo)
    (dyn sensors : List (Nat × SensorInfo)) (dcs : Option Nat) :
    connectDynLoop idx added dyn =
      (((added.filter (fun x => subHalIndexIsClear x.sensorHandle)).map
          (fun x => { x with sensorHandle := setSubHalIndex x.sensorHandle idx })).foldl
        (fun m st => assocInsert m st.sensorHandle st) dyn,
       (added.filter (fun x => subHalIndexIsClear x.sensorHandle)).map
          (fun x => { x with sensorHandle := setSubHalIndex x.sensorHandle idx })) ∧
    initSensorListOne idx list sensors dcs =
      initSensorListOne idx (list.filter (fun x => subHalIndexIsClear x.sensorHandle))
        sensors dcs ∧
    (∀ sensor ∈ list, subHalIndexIsClear sensor.sensorHandle = true →
      (assocLookup (initSensorListOne idx list sensors dcs).1
        (setSubHalIndex sensor.sensorHandle idx)).isSome = true) := by
  refine ⟨connectDynLoop_spec idx added dyn, initSensorListOne_skips_namespaced idx list sensors dcs, ?_⟩
  induction list generalizing sensors dcs with
  | nil => intro sensor hmem; exact absurd hmem (List.not_mem_nil sensor)
  | cons hd rest ih =>
    intro sensor hmem hclear
    rcases List.mem_cons.mp hmem with rfl | hmem2
    · simp only [initSensorListOne, hclear, if_true]
      generalize hp : setDirectChannelFlags { sensor with
          sensorHandle := setSubHalIndex sensor.sensorHandle idx } idx dcs = p
      have hkey : p.1.sensorHandle = setSubHalIndex sensor.sensorHandle idx := by
        rw [← hp]; exact dcf_handle _ idx dcs
      apply initSensorListOne_preserves_isSome
      rw [← hkey, assocLookup_insert_self]
      rfl
    · by_cases hc : subHalIndexIsClear hd.sensorHandle
      · simp only [initSensorListOne, hc, if_true]
        exact ih _ _ sensor hmem2 hclear
      · simp only [initSensorListOne, hc, if_false]
        exact ih _ _ sensor hmem2 hclear

/-- C9 witness: backend 1 reports a namespaced handle (`2^24`, dropped
from catalog and notification) and a clear handle 2 (stamped and
inserted); the characterizations instantiated at that input. -/
theorem catalog_stamping_excludes_namespaced_witness :
    connectDynLoop 1 [⟨16777216, 0⟩, ⟨2, 5⟩] [] =
      (((([⟨16777216, 0⟩, ⟨2, 5⟩] : List SensorInfo).filter
          (fun x => subHalIndexIsClear x.sensorHandle)).map
          (fun x => { x with sensorHandle := setSubHalIndex x.sensorHandle 1 })).foldl
        (fun m st => assocInsert m st.sensorHandle st) [],
       (([⟨16777216, 0⟩, ⟨2, 5⟩] : List SensorInfo).filter
          (fun x => subHalIndexIsClear x.sensorHandle)).map
          (fun x => { x with sensorHandle := setSubHalIndex x.sensorHandle 1 })) ∧
    (assocLookup (initSensorListOne 1 [⟨16777216, 0⟩, ⟨2, 5⟩] [] none).1
      (setSubHalIndex 2 1)).isSome = true :=
  ⟨(catalog_stamping_excludes_namespaced 1 [⟨16777216, 0⟩, ⟨2, 5⟩]
      [⟨16777216, 0⟩, ⟨2, 5⟩] [] [] none).1,
   (catalog_stamping_excludes_namespaced 1 [⟨16777216, 0⟩, ⟨2, 5⟩]
      [⟨16777216, 0⟩, ⟨2, 5⟩] [] [] none).2.2 ⟨2, 5⟩ (by decide) (by decide)⟩

end SensorsMultihal
